import Mathlib

/-!
Shallow embedding of the TYSMP application system's core
(`MAIN_Backend/database_service`): the token store with its three protocol
operations (`CreateOrRotateLoginToken`, `ExchangeToken`, `ConsumeToken`),
the user upsert and profile update, and the `app_events` listener loop.

Modelling conventions:
* Timestamps and uuid values are `Nat`; `now()` is an explicit parameter.
* The Postgres tables become lists of rows inside a `Store`; a transaction
  that errors out is modelled by returning `Except.error` together with the
  unchanged pre-state (pgx `defer tx.Rollback` with no commit).
* `uuid_generate_v4()` is modelled by explicit fresh-value parameters; the
  `UNIQUE` constraint on `login_tokens.token` (schema, part_001) is checked
  at insert time.
* `CreateOrRotateLoginToken` performs the user upsert in a first, separately
  committed transaction and the token work in a second one, exactly as the Go
  source does; a `tokenTxFails` flag models the store becoming unavailable
  between the two commits.
-/

namespace TYSMP

/-- Application status lifecycle (`models.go`). -/
inductive Status where
  | applicant
  | interviewPending
  | member
  | banned
deriving DecidableEq, Repr

/-- Row of the `users` table (`models.go`, schema `01_schema.sql`). -/
structure User where
  id : Nat
  discordUserID : Int
  discordUsername : String
  minecraftName : Option String
  age : Option Int
  createdAt : Nat
  updatedAt : Nat
deriving DecidableEq, Repr

/-- Row of the `login_tokens` table (`models.go`, schema part_001). -/
structure LoginToken where
  id : Nat
  userID : Nat
  token : Nat
  addedAt : Nat
  expiresAt : Nat
  revoked : Bool
deriving DecidableEq, Repr

/-- Row of the `applications` table (`models.go`). Answers are kept abstract
as an association list of question/answer strings. -/
structure Application where
  id : Nat
  userID : Nat
  answers : List (String × String)
  status : Status
  createdAt : Nat
  updatedAt : Nat
deriving DecidableEq, Repr

/-- The durable store: the three tables the core operations touch. -/
structure Store where
  users : List User
  tokens : List LoginToken
  apps : List Application
deriving DecidableEq, Repr

/-- Errors surfaced by the database layer. `invalidOrExpiredToken` is
`ErrInvalidOrExpiredToken` in `tokens.go`; `noRows` is `pgx.ErrNoRows`
escaping a non-token query; `uniqueViolation` is a constraint failure on
insert; `txFailed` models the store being unreachable mid-operation. -/
inductive DBError where
  | invalidOrExpiredToken
  | noRows
  | uniqueViolation
  | txFailed
deriving DecidableEq, Repr

/-- SQL `COALESCE` on two nullable values. -/
def coalesce {α : Type} (a b : Option α) : Option α :=
  match a with
  | some x => some x
  | none => b

/-- The `WHERE token = $1 AND revoked = false AND expires_at > now()` filter
used by the locking lookup in `ExchangeToken` and `ConsumeToken`. -/
def tokenMatches (now value : Nat) (t : LoginToken) : Bool :=
  t.token == value && !t.revoked && decide (now < t.expiresAt)

/-- The locking `SELECT user_id FROM login_tokens WHERE ... FOR UPDATE`:
the first stored row matching the active-token filter. -/
def findActiveToken (s : Store) (now value : Nat) : Option LoginToken :=
  s.tokens.find? (tokenMatches now value)

/-- `UPDATE login_tokens SET revoked = true WHERE token = $1`. -/
def revokeByValue (tokens : List LoginToken) (value : Nat) : List LoginToken :=
  tokens.map fun t => if t.token == value then { t with revoked := true } else t

/-- `SELECT ... FROM users WHERE id = $1`. -/
def findUserByID (s : Store) (uid : Nat) : Option User :=
  s.users.find? fun u => u.id == uid

/-- `INSERT INTO login_tokens ...`; enforces the schema's `UNIQUE`
constraint on the token value. -/
def insertToken (s : Store) (t : LoginToken) : Except DBError Store :=
  if s.tokens.any (fun u => u.token == t.token) then
    .error .uniqueViolation
  else
    .ok { s with tokens := s.tokens ++ [t] }

/-- The fifteen-minute validity window (`interval '15 minutes'`), in seconds. -/
def fifteenMinutes : Nat := 15 * 60

/-- The row built by `INSERT INTO login_tokens (user_id, token, added_at,
expires_at) VALUES ($1, uuid_generate_v4(), now(), now() + interval '15
minutes')`, with the generated uuids passed in explicitly. -/
def mintToken (now freshId freshSecret uid : Nat) : LoginToken :=
  { id := freshId, userID := uid, token := freshSecret,
    addedAt := now, expiresAt := now + fifteenMinutes, revoked := false }

/-- `ExchangeToken` (`tokens.go`): lock the active row for the presented
value, revoke it, insert a replacement token for the same user expiring
fifteen minutes from now, and return the user's current row plus the
replacement. Any error rolls the transaction back (no new store returned). -/
def ExchangeToken (s : Store) (now value freshId freshSecret : Nat) :
    Except DBError (Store × User × LoginToken) :=
  match findActiveToken s now value with
  | none => .error .invalidOrExpiredToken
  | some row =>
    match insertToken { s with tokens := revokeByValue s.tokens value }
        (mintToken now freshId freshSecret row.userID) with
    | .error e => .error e
    | .ok s2 =>
      match findUserByID s2 row.userID with
      | none => .error .noRows
      | some u => .ok (s2, u, mintToken now freshId freshSecret row.userID)

/-- `ConsumeToken` (`tokens.go`): same locking lookup, revoke the row, fetch
and return the bound user; no replacement token is inserted. -/
def ConsumeToken (s : Store) (now value : Nat) :
    Except DBError (Store × User) :=
  match findActiveToken s now value with
  | none => .error .invalidOrExpiredToken
  | some row =>
    match findUserByID { s with tokens := revokeByValue s.tokens value } row.userID with
    | none => .error .noRows
    | some u => .ok ({ s with tokens := revokeByValue s.tokens value }, u)

/-- The post-state an Exchange caller observes: the committed store on
success, the untouched pre-state after a rollback. -/
def exchangeRun (s : Store) (now value freshId freshSecret : Nat) : Store :=
  match ExchangeToken s now value freshId freshSecret with
  | .ok (s2, _, _) => s2
  | .error _ => s

/-- The post-state a Consume caller observes (rollback keeps the pre-state). -/
def consumeRun (s : Store) (now value : Nat) : Store :=
  match ConsumeToken s now value with
  | .ok (s1, _) => s1
  | .error _ => s

/-- The `ON CONFLICT (discord_user_id) DO UPDATE` row merge in `UpsertUser`
(`db.go`): display name is overwritten, `minecraft_name` and `age` keep the
stored value when the incoming one is absent (`COALESCE(EXCLUDED.x, users.x)`). -/
def upsertMerge (old incoming : User) : User :=
  { old with
    discordUsername := incoming.discordUsername,
    minecraftName := coalesce incoming.minecraftName old.minecraftName,
    age := coalesce incoming.age old.age }

/-- `UpsertUser` (`db.go`): insert a user row keyed by `discord_user_id`, or
merge-update the existing row on conflict; returns the resulting row.
`freshUserId` stands for the generated `id` default. -/
def UpsertUser (s : Store) (now freshUserId : Nat) (u : User) : Store × User :=
  match s.users.find? (fun w => w.discordUserID == u.discordUserID) with
  | some old =>
    let merged := upsertMerge old u
    ({ s with users := s.users.map fun w =>
        if w.discordUserID == u.discordUserID then upsertMerge w u else w },
     merged)
  | none =>
    let newRow : User := { u with id := freshUserId, createdAt := now, updatedAt := now }
    ({ s with users := s.users ++ [newRow] }, newRow)

/-- The `UPDATE login_tokens SET revoked = true WHERE user_id = $1 AND
revoked = false AND expires_at > now()` step of `CreateOrRotateLoginToken`. -/
def revokeActiveForUser (tokens : List LoginToken) (now uid : Nat) : List LoginToken :=
  tokens.map fun t =>
    if t.userID == uid && !t.revoked && decide (now < t.expiresAt) then
      { t with revoked := true }
    else t

/-- The `User{DiscordUserID: ..., DiscordUsername: ...}` literal that
`CreateOrRotateLoginToken` hands to `UpsertUser`: optional attributes absent. -/
def rotateInput (discordUserID : Int) (discordUsername : String) : User :=
  { id := 0, discordUserID := discordUserID, discordUsername := discordUsername,
    minecraftName := none, age := none, createdAt := 0, updatedAt := 0 }

/-- `CreateOrRotateLoginToken` (`tokens.go`): upsert the user in a first
transaction that commits on its own, then — in a second transaction — revoke
the user's active tokens and insert a fresh fifteen-minute token.
`tokenTxFails` injects a store failure after the first commit; the returned
store is what persists in either case (the second transaction rolls back to
the post-upsert state on any error). -/
def CreateOrRotateLoginToken (s : Store) (now freshUserId freshTokenId freshSecret : Nat)
    (discordUserID : Int) (discordUsername : String) (tokenTxFails : Bool) :
    Store × Except DBError (User × LoginToken) :=
  if tokenTxFails then
    ((UpsertUser s now freshUserId (rotateInput discordUserID discordUsername)).1,
     .error .txFailed)
  else
    match insertToken
        { (UpsertUser s now freshUserId (rotateInput discordUserID discordUsername)).1 with
          tokens := revokeActiveForUser
            (UpsertUser s now freshUserId (rotateInput discordUserID discordUsername)).1.tokens
            now
            (UpsertUser s now freshUserId (rotateInput discordUserID discordUsername)).2.id }
        (mintToken now freshTokenId freshSecret
          (UpsertUser s now freshUserId (rotateInput discordUserID discordUsername)).2.id) with
    | .error e =>
      ((UpsertUser s now freshUserId (rotateInput discordUserID discordUsername)).1, .error e)
    | .ok s3 =>
      (s3, .ok ((UpsertUser s now freshUserId (rotateInput discordUserID discordUsername)).2,
        mintToken now freshTokenId freshSecret
          (UpsertUser s now freshUserId (rotateInput discordUserID discordUsername)).2.id))

/-- `UpdateUserProfile` (part_000): `UPDATE users SET age = COALESCE($2, age),
minecraft_name = $3 WHERE id = $1` — age keeps the stored value when the
incoming one is absent, but `minecraft_name` is assigned unconditionally,
including being set to null. Errors with `noRows` when no row matches. -/
def UpdateUserProfile (s : Store) (userID : Nat)
    (age : Option Int) (minecraftName : Option String) :
    Except DBError (Store × User) :=
  match findUserByID s userID with
  | none => .error .noRows
  | some old =>
    let updated : User :=
      { old with age := coalesce age old.age, minecraftName := minecraftName }
    .ok ({ s with users := s.users.map fun w =>
            if w.id == userID then
              { w with age := coalesce age w.age, minecraftName := minecraftName }
            else w },
         updated)

/-! ## Change event channel (`ListenAppEvents`, `db.go`) -/

/-- Decoded `app_events` notification (`AppEvent` in `models.go`). -/
structure AppEvent where
  table : String
  action : String
  rowID : String
  userID : Option String
  status : Option Status
  minecraftName : Option String
  discordUserID : Option Int
  atTime : Nat
deriving DecidableEq, Repr

/-- A notification payload as the listener sees it: either it decodes to an
`AppEvent` (`json.Unmarshal` succeeds) or it is malformed raw text. -/
inductive Notif where
  | ok (ev : AppEvent)
  | bad (raw : String)
deriving DecidableEq, Repr

/-- One iteration's input to the delivery loop: the context is observed
cancelled at the top of the loop, or `WaitForNotification` returns a
timeout, a `context.Canceled` error, a transport error, or a notification. -/
inductive LoopStep where
  | ctxDone
  | waitTimeout
  | waitCanceled
  | waitErr (msg : String)
  | notif (n : Notif)
deriving DecidableEq, Repr

/-- Why the delivery loop returned. -/
inductive ExitReason where
  | cancelled
  | cancelledWait
  | transport (msg : String)
deriving DecidableEq, Repr

/-- Observable primitive actions of the listener goroutine, in order:
deliveries on the event channel, sends on the error channel, and the
deferred cleanup steps (`UNLISTEN`, connection release, channel closes). -/
inductive ListenerAct where
  | emitEvent (ev : AppEvent)
  | emitErr (msg : String)
  | unlisten
  | release
  | closeErrs
  | closeEvents
deriving DecidableEq, Repr

/-- The `for` loop body of `ListenAppEvents`, run over a finite schedule of
iteration inputs: a timeout keeps looping; a decode failure sends on the
error channel and keeps looping; cancellation returns silently; a transport
error sends on the error channel and returns; a decoded notification is
delivered. Returns the actions performed and, when the loop returned within
the schedule, the exit reason. -/
def runLoop : List LoopStep → List ListenerAct × Option ExitReason
  | [] => ([], none)
  | step :: rest =>
    match step with
    | .ctxDone => ([], some .cancelled)
    | .waitTimeout => runLoop rest
    | .waitCanceled => ([], some .cancelledWait)
    | .waitErr m => ([.emitErr ("listen error: " ++ m)], some (.transport m))
    | .notif (.ok ev) =>
      let r := runLoop rest
      (.emitEvent ev :: r.1, r.2)
    | .notif (.bad raw) =>
      let r := runLoop rest
      (.emitErr ("decode notify payload: " ++ raw) :: r.1, r.2)

/-- The events forwarded to the event channel by a schedule. -/
def deliveredEvents (steps : List LoopStep) : List AppEvent :=
  (runLoop steps).1.filterMap fun a =>
    match a with
    | .emitEvent ev => some ev
    | _ => none

/-- The error messages sent on the error channel by a schedule. -/
def reportedErrors (steps : List LoopStep) : List String :=
  (runLoop steps).1.filterMap fun a =>
    match a with
    | .emitErr m => some m
    | _ => none

/-- The whole listener goroutine: run the loop, and when it returns execute
the deferred actions in LIFO registration order — the cleanup closure
(`UNLISTEN app_events`, `conn.Release()`), then `close(errs)`, then
`close(events)`. -/
def runListener (steps : List LoopStep) : List ListenerAct × Option ExitReason :=
  let r := runLoop steps
  match r.2 with
  | none => r
  | some reason =>
    (r.1 ++ [.unlisten, .release, .closeErrs, .closeEvents], some reason)

/-! ## Invariant vocabulary and concrete fixtures -/

/-- A token counted by the per-user "active" invariant: bound to the user,
non-revoked, not past expiry. -/
def activeFor (now uid : Nat) (t : LoginToken) : Bool :=
  t.userID == uid && !t.revoked && decide (now < t.expiresAt)

/-- Number of active tokens a user holds in the store at the given instant. -/
def countActive (s : Store) (now uid : Nat) : Nat :=
  (s.tokens.filter (activeFor now uid)).length

/-- Concrete user fixture. -/
def exUser : User :=
  { id := 1, discordUserID := 42, discordUsername := "alice",
    minecraftName := some "al", age := some 19, createdAt := 0, updatedAt := 0 }

/-- Concrete active token fixture for `exUser`, valid on `[0, 900)`. -/
def exToken : LoginToken :=
  { id := 10, userID := 1, token := 100, addedAt := 0, expiresAt := 900, revoked := false }

/-- Concrete application fixture for `exUser`. -/
def exApp : Application :=
  { id := 20, userID := 1, answers := [("q1", "a1")], status := .applicant,
    createdAt := 0, updatedAt := 0 }

/-- Concrete store fixture: one user, one active token, one application. -/
def exStore : Store := { users := [exUser], tokens := [exToken], apps := [exApp] }

/-- The empty store. -/
def emptyStore : Store := { users := [], tokens := [], apps := [] }

/-- The fixture store after `exToken` has been consumed. -/
def exConsumedStore : Store :=
  { users := [exUser], tokens := [{ exToken with revoked := true }], apps := [exApp] }

/-- The user row created by issuing a token for identity 42 on `emptyStore`. -/
def exRotUser : User :=
  { id := 1, discordUserID := 42, discordUsername := "alice",
    minecraftName := none, age := none, createdAt := 0, updatedAt := 0 }

/-- The token minted by that issuance. -/
def exRotToken : LoginToken := mintToken 0 10 100 1

/-- The store produced by `CreateOrRotateLoginToken emptyStore 0 1 10 100 42 "alice" false`. -/
def exRotStore : Store := { users := [exRotUser], tokens := [exRotToken], apps := [] }

/-! ## Helper lemmas -/

theorem eq_singleton_of_mem_of_length_le_one {α : Type} {l : List α} {a : α}
    (hm : a ∈ l) (hl : l.length ≤ 1) : l = [a] := by
  match l with
  | [] => cases hm
  | [x] =>
    obtain rfl : a = x := by simpa using hm
    rfl
  | x :: y :: rest =>
    exfalso
    simp only [List.length_cons] at hl
    omega

theorem find?_eq_none_of {α : Type} (p : α → Bool) (l : List α)
    (h : ∀ x ∈ l, p x = false) : l.find? p = none := by
  rw [List.find?_eq_none]
  intro x hx
  simp [h x hx]

theorem find?_append_right {α : Type} (p : α → Bool) (l₁ l₂ : List α)
    (h : ∀ x ∈ l₁, p x = false) : (l₁ ++ l₂).find? p = l₂.find? p := by
  induction l₁ with
  | nil => simp
  | cons x xs ih =>
    have hx : ¬p x = true := by simp [h x (List.mem_cons_self x xs)]
    rw [List.cons_append, List.find?_cons_of_neg _ hx]
    exact ih fun y hy => h y (List.mem_cons_of_mem x hy)

theorem revokeByValue_token_map (l : List LoginToken) (value : Nat) :
    (revokeByValue l value).map LoginToken.token = l.map LoginToken.token := by
  unfold revokeByValue
  rw [List.map_map]
  apply List.map_congr_left
  intro t _
  by_cases h : t.token == value <;> simp [h, Function.comp]

theorem revokeActiveForUser_token_map (l : List LoginToken) (now uid : Nat) :
    (revokeActiveForUser l now uid).map LoginToken.token = l.map LoginToken.token := by
  unfold revokeActiveForUser
  rw [List.map_map]
  apply List.map_congr_left
  intro t _
  by_cases h : t.userID == uid && !t.revoked && decide (now < t.expiresAt) <;>
    simp [h, Function.comp]

theorem any_token_via_map (l : List LoginToken) (q : Nat) :
    (l.any fun t => t.token == q) = ((l.map LoginToken.token).any fun v => v == q) := by
  induction l with
  | nil => rfl
  | cons t ts ih => simp [List.any_cons, ih]

theorem any_token_eq_of_token_map_eq {l₁ l₂ : List LoginToken}
    (h : l₁.map LoginToken.token = l₂.map LoginToken.token) (q : Nat) :
    (l₁.any fun t => t.token == q) = (l₂.any fun t => t.token == q) := by
  rw [any_token_via_map, any_token_via_map, h]

theorem revokeByValue_revokes (l : List LoginToken) (value : Nat) :
    ∀ t ∈ revokeByValue l value, t.token = value → t.revoked = true := by
  intro t ht hv
  unfold revokeByValue at ht
  obtain ⟨x, hx, rfl⟩ := List.mem_map.mp ht
  by_cases h : (x.token == value) = true
  · simp [h]
  · rw [if_neg h] at hv ⊢
    exact absurd (by simp [hv]) h

theorem findActiveToken_elim {s : Store} {now value : Nat} {row : LoginToken}
    (h : findActiveToken s now value = some row) :
    row ∈ s.tokens ∧ row.token = value ∧ row.revoked = false ∧ now < row.expiresAt := by
  have hmem := List.mem_of_find?_eq_some h
  have hmatch := List.find?_some h
  simp only [tokenMatches, Bool.and_eq_true, beq_iff_eq, Bool.not_eq_true',
    decide_eq_true_eq] at hmatch
  exact ⟨hmem, hmatch.1.1, hmatch.1.2, hmatch.2⟩

theorem tokenMatches_false_mixed {now value : Nat} {t : LoginToken}
    (h : t.token = value → t.revoked = true) : tokenMatches now value t = false := by
  by_cases hv : t.token = value
  · simp [tokenMatches, hv, h hv]
  · simp [tokenMatches, hv]

theorem exchangeToken_err_of_none {s : Store} {now value freshId freshSecret : Nat}
    (h : findActiveToken s now value = none) :
    ExchangeToken s now value freshId freshSecret = .error .invalidOrExpiredToken := by
  unfold ExchangeToken
  rw [h]

theorem consumeToken_err_of_none {s : Store} {now value : Nat}
    (h : findActiveToken s now value = none) :
    ConsumeToken s now value = .error .invalidOrExpiredToken := by
  unfold ConsumeToken
  rw [h]

theorem exchangeToken_ok_of {s : Store} {now value freshId freshSecret : Nat}
    {row : LoginToken} {u : User}
    (hrow : findActiveToken s now value = some row)
    (hfresh : (s.tokens.any fun t => t.token == freshSecret) = false)
    (huser : findUserByID s row.userID = some u) :
    ExchangeToken s now value freshId freshSecret =
      .ok ({ s with tokens := revokeByValue s.tokens value ++
                [mintToken now freshId freshSecret row.userID] },
           u, mintToken now freshId freshSecret row.userID) := by
  have hany : ((revokeByValue s.tokens value).any fun t => t.token == freshSecret) = false := by
    rw [any_token_eq_of_token_map_eq (revokeByValue_token_map s.tokens value) freshSecret]
    exact hfresh
  have hins : insertToken { s with tokens := revokeByValue s.tokens value }
      (mintToken now freshId freshSecret row.userID) =
      .ok { s with tokens := revokeByValue s.tokens value ++
              [mintToken now freshId freshSecret row.userID] } := by
    unfold insertToken
    simp [mintToken, hany]
  have husr : findUserByID { s with tokens := revokeByValue s.tokens value ++
        [mintToken now freshId freshSecret row.userID] } row.userID = some u := by
    simpa [findUserByID] using huser
  unfold ExchangeToken
  rw [hrow]
  simp only [hins, husr]

theorem length_filter_revokeMap_le (l : List LoginToken) (now uid : Nat)
    (g : LoginToken → LoginToken)
    (hg : ∀ t, g t = t ∨ g t = { t with revoked := true }) :
    ((l.map g).filter (activeFor now uid)).length ≤
      (l.filter (activeFor now uid)).length := by
  induction l with
  | nil => simp
  | cons t ts ih =>
    rw [List.map_cons, List.filter_cons, List.filter_cons]
    by_cases hp : activeFor now uid (g t) = true
    · have hgt : g t = t := by
        rcases hg t with hc | hc
        · exact hc
        · rw [hc] at hp
          simp [activeFor] at hp
      rw [hgt] at hp
      rw [hgt, if_pos hp, if_pos hp]
      simpa [List.length_cons] using ih
    · rw [if_neg hp]
      refine Nat.le_trans ih ?_
      by_cases hq : activeFor now uid t = true
      · rw [if_pos hq]
        exact Nat.le_succ _
      · rw [if_neg hq]

theorem revokeByValue_active_nil (l : List LoginToken) (now uid value : Nat)
    (row : LoginToken) (hm : row ∈ l) (hra : activeFor now uid row = true)
    (hv : row.token = value)
    (h1 : (l.filter (activeFor now uid)).length ≤ 1) :
    (revokeByValue l value).filter (activeFor now uid) = [] := by
  have hsingle : l.filter (activeFor now uid) = [row] :=
    eq_singleton_of_mem_of_length_le_one (List.mem_filter.mpr ⟨hm, hra⟩) h1
  rw [List.filter_eq_nil_iff]
  intro t ht
  unfold revokeByValue at ht
  obtain ⟨x, hx, rfl⟩ := List.mem_map.mp ht
  by_cases hc : (x.token == value) = true
  · rw [if_pos hc]
    simp [activeFor]
  · rw [if_neg hc]
    intro hax
    have hxf : x ∈ l.filter (activeFor now uid) := List.mem_filter.mpr ⟨hx, hax⟩
    rw [hsingle] at hxf
    obtain rfl : x = row := by simpa using hxf
    exact hc (by simp [hv])

theorem revokeActiveForUser_active_nil (l : List LoginToken) (now uid : Nat) :
    (revokeActiveForUser l now uid).filter (activeFor now uid) = [] := by
  rw [List.filter_eq_nil_iff]
  intro t ht
  unfold revokeActiveForUser at ht
  obtain ⟨x, hx, rfl⟩ := List.mem_map.mp ht
  by_cases hc : (x.userID == uid && !x.revoked && decide (now < x.expiresAt)) = true
  · rw [if_pos hc]
    simp [activeFor]
  · rw [if_neg hc]
    simpa [activeFor] using hc

theorem revokeActiveForUser_filter_le (l : List LoginToken) (now uid tgt : Nat) :
    ((revokeActiveForUser l now tgt).filter (activeFor now uid)).length ≤
      (l.filter (activeFor now uid)).length := by
  unfold revokeActiveForUser
  refine length_filter_revokeMap_le l now uid _ fun t => ?_
  by_cases hc : (t.userID == tgt && !t.revoked && decide (now < t.expiresAt)) = true
  · rw [if_pos hc]
    exact Or.inr rfl
  · rw [if_neg hc]
    exact Or.inl rfl

theorem revokeByValue_filter_le (l : List LoginToken) (now uid value : Nat) :
    ((revokeByValue l value).filter (activeFor now uid)).length ≤
      (l.filter (activeFor now uid)).length := by
  unfold revokeByValue
  refine length_filter_revokeMap_le l now uid _ fun t => ?_
  by_cases hc : (t.token == value) = true
  · rw [if_pos hc]
    exact Or.inr rfl
  · rw [if_neg hc]
    exact Or.inl rfl

theorem upsertUser_tokens (s : Store) (now fu : Nat) (u : User) :
    (UpsertUser s now fu u).1.tokens = s.tokens := by
  unfold UpsertUser
  split <;> rfl

theorem upsertUser_apps (s : Store) (now fu : Nat) (u : User) :
    (UpsertUser s now fu u).1.apps = s.apps := by
  unfold UpsertUser
  split <;> rfl

theorem exchangeToken_ok_elim {s : Store} {now value freshId freshSecret : Nat}
    {s2 : Store} {u : User} {tok : LoginToken}
    (h : ExchangeToken s now value freshId freshSecret = .ok (s2, u, tok)) :
    ∃ row, findActiveToken s now value = some row ∧
      tok = mintToken now freshId freshSecret row.userID ∧
      s2 = { s with tokens := revokeByValue s.tokens value ++ [tok] } ∧
      findUserByID s row.userID = some u ∧
      ((revokeByValue s.tokens value).any fun t => t.token == freshSecret) = false := by
  unfold ExchangeToken at h
  split at h
  next => exact absurd h (by simp)
  next row hrow =>
    split at h
    next e he => exact absurd h (by simp)
    next s2' hs2' =>
      split at h
      next => exact absurd h (by simp)
      next u' hu' =>
        rw [Except.ok.injEq, Prod.mk.injEq, Prod.mk.injEq] at h
        obtain ⟨hs, hu, ht⟩ := h
        unfold insertToken at hs2'
        split at hs2'
        next => exact absurd hs2' (by simp)
        next hcond =>
          rw [Except.ok.injEq] at hs2'
          subst hs2'
          subst hs
          subst hu
          subst ht
          refine ⟨row, hrow, rfl, rfl, hu', ?_⟩
          simpa [mintToken] using hcond

theorem createOrRotate_ok_elim {s : Store} {now fu ft fsec : Nat} {did : Int}
    {dn : String} {ff : Bool} {s' : Store} {user : User} {tok : LoginToken}
    (h : CreateOrRotateLoginToken s now fu ft fsec did dn ff = (s', .ok (user, tok))) :
    user = (UpsertUser s now fu (rotateInput did dn)).2 ∧
    tok = mintToken now ft fsec user.id ∧
    s' = { (UpsertUser s now fu (rotateInput did dn)).1 with
           tokens := revokeActiveForUser s.tokens now user.id ++ [tok] } ∧
    ((revokeActiveForUser s.tokens now user.id).any fun t => t.token == fsec) = false := by
  unfold CreateOrRotateLoginToken at h
  split at h
  next =>
    rw [Prod.mk.injEq] at h
    exact absurd h.2 (by simp)
  next =>
    split at h
    next e he =>
      rw [Prod.mk.injEq] at h
      exact absurd h.2 (by simp)
    next s3 hs3 =>
      rw [Prod.mk.injEq, Except.ok.injEq, Prod.mk.injEq] at h
      obtain ⟨hst, huser, htok⟩ := h
      unfold insertToken at hs3
      split at hs3
      next => exact absurd hs3 (by simp)
      next hcond =>
        rw [Except.ok.injEq] at hs3
        subst hs3
        subst hst
        subst huser
        subst htok
        refine ⟨rfl, rfl, ?_, ?_⟩
        · rw [upsertUser_tokens]
        · rw [upsertUser_tokens] at hcond
          simpa [mintToken] using hcond

theorem createOrRotate_err_state {s : Store} {now fu ft fsec : Nat} {did : Int}
    {dn : String} {ff : Bool} {e : DBError}
    (h : (CreateOrRotateLoginToken s now fu ft fsec did dn ff).2 = .error e) :
    (CreateOrRotateLoginToken s now fu ft fsec did dn ff).1 =
      (UpsertUser s now fu (rotateInput did dn)).1 := by
  cases ff with
  | true => rfl
  | false =>
    unfold CreateOrRotateLoginToken at h ⊢
    rw [if_neg (by simp)] at h ⊢
    split at h
    next e' heq => rfl
    next s3 heq => simp at h

theorem createOrRotate_users (s : Store) (now fu ft fsec : Nat) (did : Int)
    (dn : String) (ff : Bool) :
    (CreateOrRotateLoginToken s now fu ft fsec did dn ff).1.users =
      (UpsertUser s now fu (rotateInput did dn)).1.users := by
  cases ff with
  | true => rfl
  | false =>
    unfold CreateOrRotateLoginToken
    rw [if_neg (by simp)]
    split
    next e heq => rfl
    next s3 heq =>
      unfold insertToken at heq
      split at heq
      next => exact absurd heq (by simp)
      next hcond =>
        rw [Except.ok.injEq] at heq
        subst heq
        rfl

theorem length_filter_map_eq {α : Type} (l : List α) (g : α → α) (p : α → Bool)
    (h : ∀ x, p (g x) = p x) : ((l.map g).filter p).length = (l.filter p).length := by
  induction l with
  | nil => rfl
  | cons x xs ih =>
    rw [List.map_cons, List.filter_cons, List.filter_cons, h x]
    by_cases hp : p x = true
    · rw [if_pos hp, if_pos hp]
      simp [ih]
    · rw [if_neg hp, if_neg hp]
      exact ih

theorem upsertUser_count (s : Store) (now fu : Nat) (u : User)
    (hle : (s.users.filter fun w => w.discordUserID == u.discordUserID).length ≤ 1) :
    ((UpsertUser s now fu u).1.users.filter
      fun w => w.discordUserID == u.discordUserID).length = 1 := by
  unfold UpsertUser
  cases hfind : s.users.find? (fun w => w.discordUserID == u.discordUserID) with
  | none =>
    have h0 : s.users.filter (fun w => w.discordUserID == u.discordUserID) = [] := by
      rw [List.filter_eq_nil_iff]
      intro x hx
      simpa using List.find?_eq_none.mp hfind x hx
    show ((s.users ++ [{ u with id := fu, createdAt := now, updatedAt := now }]).filter
      fun w : User => w.discordUserID == u.discordUserID).length = 1
    rw [List.filter_append, h0, List.nil_append]
    simp
  | some old =>
    have hold := List.find?_some hfind
    have holdmem := List.mem_of_find?_eq_some hfind
    have hge : 0 < (s.users.filter fun w => w.discordUserID == u.discordUserID).length := by
      have : old ∈ s.users.filter fun w => w.discordUserID == u.discordUserID :=
        List.mem_filter.mpr ⟨holdmem, hold⟩
      exact List.length_pos_of_mem this
    have heqc : ((s.users.map fun w : User =>
        if w.discordUserID == u.discordUserID then upsertMerge w u else w).filter
        fun w : User => w.discordUserID == u.discordUserID).length =
        (s.users.filter fun w : User => w.discordUserID == u.discordUserID).length := by
      refine length_filter_map_eq s.users _ _ fun x => ?_
      by_cases hx : (x.discordUserID == u.discordUserID) = true
      · rw [if_pos hx]
        simp only [upsertMerge]
      · rw [if_neg hx]
    show ((s.users.map fun w : User =>
      if w.discordUserID == u.discordUserID then upsertMerge w u else w).filter
      fun w : User => w.discordUserID == u.discordUserID).length = 1
    rw [heqc]
    omega

/-! ## Claims -/

/-- C1: whenever the presented value matches a stored token that is
non-revoked and not past expiry, `ExchangeToken` succeeds: it revokes the
presented token, inserts a replacement bound to the same user with the fresh
secret and an expiry fifteen minutes from now, and returns the user's
current profile row together with that replacement. -/
theorem exchange_success_spec (s : Store) (now value freshId freshSecret : Nat)
    (row : LoginToken) (u : User)
    (hrow : findActiveToken s now value = some row)
    (hfresh : ∀ t ∈ s.tokens, t.token ≠ freshSecret)
    (huser : findUserByID s row.userID = some u) :
    ∃ s2 tok, ExchangeToken s now value freshId freshSecret = .ok (s2, u, tok) ∧
      tok.userID = row.userID ∧
      tok.token = freshSecret ∧
      tok.addedAt = now ∧
      tok.expiresAt = now + fifteenMinutes ∧
      tok.revoked = false ∧
      s2.users = s.users ∧
      s2.apps = s.apps ∧
      s2.tokens = revokeByValue s.tokens value ++ [tok] ∧
      (∀ t ∈ s2.tokens, t.token = value → t.revoked = true) := by
  have hfresh' : (s.tokens.any fun t => t.token == freshSecret) = false := by
    rw [List.any_eq_false]
    intro t ht
    simp [hfresh t ht]
  refine ⟨_, _, exchangeToken_ok_of hrow hfresh' huser,
    rfl, rfl, rfl, rfl, rfl, rfl, rfl, rfl, ?_⟩
  intro t ht hv
  rcases List.mem_append.mp ht with hmem | hmem
  · exact revokeByValue_revokes _ _ t hmem hv
  · obtain rfl : t = mintToken now freshId freshSecret row.userID := by simpa using hmem
    obtain ⟨hrmem, hrtok, -, -⟩ := findActiveToken_elim hrow
    simp only [mintToken] at hv
    exact absurd (hrtok.trans hv.symm) (hfresh row hrmem)

/-- Closed instance of `exchange_success_spec` on the concrete fixture store. -/
theorem exchange_success_spec_witness :
    ∃ s2 tok, ExchangeToken exStore 0 100 11 101 = .ok (s2, exUser, tok) ∧
      tok.userID = exToken.userID ∧
      tok.token = 101 ∧
      tok.addedAt = 0 ∧
      tok.expiresAt = 0 + fifteenMinutes ∧
      tok.revoked = false ∧
      s2.users = exStore.users ∧
      s2.apps = exStore.apps ∧
      s2.tokens = revokeByValue exStore.tokens 100 ++ [tok] ∧
      (∀ t ∈ s2.tokens, t.token = 100 → t.revoked = true) :=
  exchange_success_spec exStore 0 100 11 101 exToken exUser
    (by decide) (by decide) (by decide)

/-- C2: when no stored token with the presented value is both non-revoked
and unexpired — in particular when every such row is past its expiry even if
not revoked — both `ExchangeToken` and `ConsumeToken` return the
distinguished invalid-or-expired error and the store that persists is the
unchanged pre-state. -/
theorem invalid_token_rejected (s : Store) (now value freshId freshSecret : Nat)
    (h : ∀ t ∈ s.tokens, t.token = value → t.revoked = true ∨ t.expiresAt ≤ now) :
    ExchangeToken s now value freshId freshSecret = .error .invalidOrExpiredToken ∧
    ConsumeToken s now value = .error .invalidOrExpiredToken ∧
    exchangeRun s now value freshId freshSecret = s ∧
    consumeRun s now value = s := by
  have hfind : findActiveToken s now value = none := by
    apply find?_eq_none_of
    intro t ht
    simp only [tokenMatches, Bool.and_eq_false_iff]
    by_cases h1 : t.token = value
    · rcases h t ht h1 with h2 | h2
      · left; right; simp [h2]
      · right; simpa using Nat.not_lt.mpr h2
    · left; left; simp [h1]
  have hex : ExchangeToken s now value freshId freshSecret = .error .invalidOrExpiredToken := by
    unfold ExchangeToken
    rw [hfind]
  have hco : ConsumeToken s now value = .error .invalidOrExpiredToken := by
    unfold ConsumeToken
    rw [hfind]
  refine ⟨hex, hco, ?_, ?_⟩
  · unfold exchangeRun
    rw [hex]
  · unfold consumeRun
    rw [hco]

/-- Closed instance of `invalid_token_rejected`: the fixture token is past
expiry (but not revoked) at instant 900, and both operations reject it. -/
theorem invalid_token_rejected_witness :
    ExchangeToken exStore 900 100 11 101 = .error .invalidOrExpiredToken ∧
    ConsumeToken exStore 900 100 = .error .invalidOrExpiredToken ∧
    exchangeRun exStore 900 100 11 101 = exStore ∧
    consumeRun exStore 900 100 = exStore :=
  invalid_token_rejected exStore 900 100 11 101 (by decide)

theorem consumeToken_ok_elim {s : Store} {now value : Nat} {s1 : Store} {u : User}
    (h : ConsumeToken s now value = .ok (s1, u)) :
    ∃ row, findActiveToken s now value = some row ∧
      s1 = { s with tokens := revokeByValue s.tokens value } ∧
      findUserByID s row.userID = some u := by
  unfold ConsumeToken at h
  split at h
  next => exact absurd h (by simp)
  next row hrow =>
    split at h
    next => exact absurd h (by simp)
    next u' hu' =>
      rw [Except.ok.injEq, Prod.mk.injEq] at h
      obtain ⟨h1, h2⟩ := h
      subst h2
      exact ⟨row, hrow, h1.symm, hu'⟩

/-- C9: a successful Consume revokes exactly the stored rows carrying the
presented value, inserts no replacement (the token table keeps its length),
leaves the user and application tables and every non-matching token row
untouched, and returns the user bound to the locked row. -/
theorem consume_frame (s : Store) (now value : Nat) (s1 : Store) (u : User)
    (h : ConsumeToken s now value = .ok (s1, u)) :
    s1.users = s.users ∧
    s1.apps = s.apps ∧
    s1.tokens.length = s.tokens.length ∧
    s1.tokens =
      s.tokens.map (fun t => if t.token == value then { t with revoked := true } else t) ∧
    (∀ t ∈ s.tokens, t.token ≠ value → t ∈ s1.tokens) ∧
    (∀ t ∈ s1.tokens, t.token = value → t.revoked = true) ∧
    ∃ row, findActiveToken s now value = some row ∧ findUserByID s row.userID = some u := by
  obtain ⟨row, hrow, hs1, hu⟩ := consumeToken_ok_elim h
  subst hs1
  refine ⟨rfl, rfl, ?_, rfl, ?_, ?_, row, hrow, hu⟩
  · simp [revokeByValue]
  · intro t ht hne
    show t ∈ revokeByValue s.tokens value
    unfold revokeByValue
    refine List.mem_map.mpr ⟨t, ht, ?_⟩
    have hbe : ¬(t.token == value) = true := by simp [hne]
    rw [if_neg hbe]
  · exact revokeByValue_revokes s.tokens value

/-- Closed instance of `consume_frame` on the fixture store. -/
theorem consume_frame_witness :
    exConsumedStore.users = exStore.users ∧
    exConsumedStore.apps = exStore.apps ∧
    exConsumedStore.tokens.length = exStore.tokens.length ∧
    exConsumedStore.tokens =
      exStore.tokens.map (fun t => if t.token == 100 then { t with revoked := true } else t) ∧
    (∀ t ∈ exStore.tokens, t.token ≠ 100 → t ∈ exConsumedStore.tokens) ∧
    (∀ t ∈ exConsumedStore.tokens, t.token = 100 → t.revoked = true) ∧
    ∃ row, findActiveToken exStore 0 100 = some row ∧
      findUserByID exStore row.userID = some exUser :=
  consume_frame exStore 0 100 exConsumedStore exUser (by rfl)

/-- C3: a completed Issue-or-Rotate leaves the rotated user with exactly one
active token (any previously active token of the user having been revoked
before the insert), and every completed Issue-or-Rotate, Exchange, and
Consume preserves the at-most-one-active-token-per-user invariant for every
user. -/
theorem at_most_one_active_invariant (s : Store) (now : Nat) :
    (∀ fu ft fsec did dn ff s' user tok,
      CreateOrRotateLoginToken s now fu ft fsec did dn ff = (s', .ok (user, tok)) →
      countActive s' now user.id = 1 ∧
      ∀ uid, countActive s now uid ≤ 1 → countActive s' now uid ≤ 1) ∧
    (∀ value fi fsec s2 u tok,
      ExchangeToken s now value fi fsec = .ok (s2, u, tok) →
      ∀ uid, countActive s now uid ≤ 1 → countActive s2 now uid ≤ 1) ∧
    (∀ value s1 u,
      ConsumeToken s now value = .ok (s1, u) →
      ∀ uid, countActive s now uid ≤ 1 → countActive s1 now uid ≤ 1) := by
  refine ⟨?_, ?_, ?_⟩
  · intro fu ft fsec did dn ff s' user tok h
    obtain ⟨huser, htok, hs', -⟩ := createOrRotate_ok_elim h
    subst htok
    subst hs'
    have hmintAct : activeFor now user.id (mintToken now ft fsec user.id) = true := by
      simp [activeFor, mintToken, fifteenMinutes]
    have hone : ((revokeActiveForUser s.tokens now user.id ++
        [mintToken now ft fsec user.id]).filter (activeFor now user.id)).length = 1 := by
      rw [List.filter_append, revokeActiveForUser_active_nil]
      simp [hmintAct]
    constructor
    · show ((revokeActiveForUser s.tokens now user.id ++
        [mintToken now ft fsec user.id]).filter (activeFor now user.id)).length = 1
      exact hone
    · intro uid hle
      show ((revokeActiveForUser s.tokens now user.id ++
        [mintToken now ft fsec user.id]).filter (activeFor now uid)).length ≤ 1
      by_cases huid : uid = user.id
      · subst huid
        exact Nat.le_of_eq hone
      · have hne : (user.id == uid) = false := by
          simp only [beq_eq_false_iff_ne, ne_eq]
          exact fun hcontra => huid hcontra.symm
        have hmn : activeFor now uid (mintToken now ft fsec user.id) = false := by
          simp [activeFor, mintToken, hne]
        have hms : ([mintToken now ft fsec user.id].filter (activeFor now uid)) = [] := by
          simp [List.filter_cons, hmn]
        rw [List.filter_append, hms, List.append_nil]
        exact Nat.le_trans (revokeActiveForUser_filter_le s.tokens now uid user.id) hle
  · intro value fi fsec s2 u tok h
    obtain ⟨row, hrow, htok, hs2, hu, hany⟩ := exchangeToken_ok_elim h
    subst htok
    subst hs2
    obtain ⟨hmem, hvtok, hnrev, hexp⟩ := findActiveToken_elim hrow
    intro uid hle
    have hle' : (s.tokens.filter (activeFor now uid)).length ≤ 1 := hle
    show ((revokeByValue s.tokens value ++
      [mintToken now fi fsec row.userID]).filter (activeFor now uid)).length ≤ 1
    by_cases huid : uid = row.userID
    · subst huid
      have hact : activeFor now row.userID row = true := by
        simp [activeFor, hnrev, hexp]
      have hnil : (revokeByValue s.tokens value).filter (activeFor now row.userID) = [] :=
        revokeByValue_active_nil s.tokens now row.userID value row hmem hact hvtok hle'
      have hmintAct : activeFor now row.userID (mintToken now fi fsec row.userID) = true := by
        simp [activeFor, mintToken, fifteenMinutes]
      rw [List.filter_append, hnil, List.nil_append]
      simp [List.filter_cons, hmintAct]
    · have hne : (row.userID == uid) = false := by
        simp only [beq_eq_false_iff_ne, ne_eq]
        exact fun hcontra => huid hcontra.symm
      have hmn : activeFor now uid (mintToken now fi fsec row.userID) = false := by
        simp [activeFor, mintToken, hne]
      have hms : ([mintToken now fi fsec row.userID].filter (activeFor now uid)) = [] := by
        simp [List.filter_cons, hmn]
      rw [List.filter_append, hms, List.append_nil]
      exact Nat.le_trans (revokeByValue_filter_le s.tokens now uid value) hle'
  · intro value s1 u h
    obtain ⟨row, hrow, hs1, hu⟩ := consumeToken_ok_elim h
    subst hs1
    intro uid hle
    show ((revokeByValue s.tokens value).filter (activeFor now uid)).length ≤ 1
    exact Nat.le_trans (revokeByValue_filter_le s.tokens now uid value) hle

/-- Closed instance of `at_most_one_active_invariant`: consuming the fixture
token keeps the user at no more than one active token. -/
theorem at_most_one_active_invariant_witness :
    countActive exConsumedStore 0 1 ≤ 1 :=
  (at_most_one_active_invariant exStore 0).2.2 100 exConsumedStore exUser
    (by rfl) 1 (by decide)

/-- C4: after Issue-or-Rotate returns token `t1`, an Exchange presenting
`t1`'s secret value (before expiry, with a fresh replacement secret)
succeeds and returns a token whose secret differs from `t1`'s; a subsequent
Exchange presenting `t1`'s original secret fails with the invalid-token
error. -/
theorem rotate_exchange_round_trip
    (s : Store) (now fu ft fsec : Nat) (did : Int) (dn : String) (ff : Bool)
    (s' : Store) (user : User) (t1 : LoginToken) (u2 : User)
    (now2 fi2 fsec2 now3 fi3 fsec3 : Nat)
    (h : CreateOrRotateLoginToken s now fu ft fsec did dn ff = (s', .ok (user, t1)))
    (hnow2 : now2 < t1.expiresAt)
    (hfresh2 : ∀ t ∈ s'.tokens, t.token ≠ fsec2)
    (hu : findUserByID s' user.id = some u2) :
    ∃ s2 tok2,
      ExchangeToken s' now2 t1.token fi2 fsec2 = .ok (s2, u2, tok2) ∧
      tok2.token ≠ t1.token ∧
      ExchangeToken s2 now3 t1.token fi3 fsec3 = .error .invalidOrExpiredToken := by
  obtain ⟨huser, htok, hs', hany⟩ := createOrRotate_ok_elim h
  subst htok
  subst hs'
  have ht1mem : mintToken now ft fsec user.id ∈
      revokeActiveForUser s.tokens now user.id ++ [mintToken now ft fsec user.id] :=
    List.mem_append.mpr (Or.inr (by simp))
  have hrow2 : findActiveToken
      { (UpsertUser s now fu (rotateInput did dn)).1 with
        tokens := revokeActiveForUser s.tokens now user.id ++ [mintToken now ft fsec user.id] }
      now2 (mintToken now ft fsec user.id).token = some (mintToken now ft fsec user.id) := by
    show (revokeActiveForUser s.tokens now user.id ++ [mintToken now ft fsec user.id]).find?
      (tokenMatches now2 (mintToken now ft fsec user.id).token) = some (mintToken now ft fsec user.id)
    rw [find?_append_right]
    · rw [List.find?_cons_of_pos]
      simp only [tokenMatches, mintToken, beq_self_eq_true, Bool.not_false, Bool.true_and]
      simp only [mintToken] at hnow2
      simp [hnow2]
    · intro x hx
      rw [List.any_eq_false] at hany
      have hxf : ¬(x.token == fsec) = true := hany x hx
      have hxf' : x.token ≠ fsec := by simpa using hxf
      exact tokenMatches_false_mixed fun hc => absurd hc hxf'
  have hfresh2' : ((revokeActiveForUser s.tokens now user.id ++
      [mintToken now ft fsec user.id]).any fun t => t.token == fsec2) = false := by
    rw [List.any_eq_false]
    intro t ht
    simp [hfresh2 t ht]
  have hok := @exchangeToken_ok_of _ now2 _ fi2 fsec2 _ u2 hrow2 hfresh2' hu
  refine ⟨_, _, hok, ?_, ?_⟩
  · have hne := hfresh2 (mintToken now ft fsec user.id) ht1mem
    simpa [mintToken] using fun hc => hne (by simpa [mintToken] using hc.symm)
  · apply exchangeToken_err_of_none
    apply find?_eq_none_of
    intro t ht
    rcases List.mem_append.mp ht with hmem | hmem
    · refine tokenMatches_false_mixed fun hc => ?_
      exact revokeByValue_revokes _ _ t hmem hc
    · obtain rfl : t = mintToken now2 fi2 fsec2 (mintToken now ft fsec user.id).userID := by
        simpa using hmem
      refine tokenMatches_false_mixed fun hc => ?_
      have hne := hfresh2 (mintToken now ft fsec user.id) ht1mem
      simp only [mintToken] at hc
      exact absurd hc.symm (by simpa [mintToken] using hne)

/-- Closed instance of `rotate_exchange_round_trip` on the store produced by
issuing a token for identity 42 on the empty store. -/
theorem rotate_exchange_round_trip_witness :
    ∃ s2 tok2,
      ExchangeToken exRotStore 0 exRotToken.token 11 101 = .ok (s2, exRotUser, tok2) ∧
      tok2.token ≠ exRotToken.token ∧
      ExchangeToken s2 0 exRotToken.token 12 102 = .error .invalidOrExpiredToken :=
  rotate_exchange_round_trip emptyStore 0 1 10 100 42 "alice" false
    exRotStore exRotUser exRotToken exRotUser 0 11 101 0 12 102
    (by rfl) (by decide) (by decide) (by decide)

/-- C5 counterexample: on the empty store, with the store becoming
unavailable after the first (upsert) transaction commits, Issue-or-Rotate
reports failure yet the newly inserted user row persists — the operation is
not all-or-nothing across its two transactions. -/
theorem rotate_not_atomic_cex :
    (CreateOrRotateLoginToken emptyStore 0 1 10 100 42 "alice" true).2 =
      .error .txFailed ∧
    (CreateOrRotateLoginToken emptyStore 0 1 10 100 42 "alice" true).1.users =
      [exRotUser] ∧
    emptyStore.users = [] :=
  ⟨rfl, rfl, rfl⟩

/-- C5 (amended): Issue-or-Rotate is two transactions, not one atomic unit.
The user upsert commits first and survives a later failure; the token
transaction alone is all-or-nothing: whenever the operation reports an
error, the persisted store carries the post-upsert user table, the
pre-state's token table (no partial revocation or insertion survives), and
the pre-state's application table. -/
theorem rotate_token_tx_atomic (s : Store) (now fu ft fsec : Nat) (did : Int)
    (dn : String) (ff : Bool) (e : DBError)
    (h : (CreateOrRotateLoginToken s now fu ft fsec did dn ff).2 = .error e) :
    (CreateOrRotateLoginToken s now fu ft fsec did dn ff).1.tokens = s.tokens ∧
    (CreateOrRotateLoginToken s now fu ft fsec did dn ff).1.users =
      (UpsertUser s now fu (rotateInput did dn)).1.users ∧
    (CreateOrRotateLoginToken s now fu ft fsec did dn ff).1.apps = s.apps := by
  have hst := createOrRotate_err_state h
  refine ⟨?_, ?_, ?_⟩
  · rw [hst, upsertUser_tokens]
  · rw [hst]
  · rw [hst, upsertUser_apps]

/-- Closed instance of `rotate_token_tx_atomic` at the injected post-upsert
failure on the empty store. -/
theorem rotate_token_tx_atomic_witness :
    (CreateOrRotateLoginToken emptyStore 0 1 10 100 42 "alice" true).1.tokens =
      emptyStore.tokens ∧
    (CreateOrRotateLoginToken emptyStore 0 1 10 100 42 "alice" true).1.users =
      (UpsertUser emptyStore 0 1 (rotateInput 42 "alice")).1.users ∧
    (CreateOrRotateLoginToken emptyStore 0 1 10 100 42 "alice" true).1.apps =
      emptyStore.apps :=
  rotate_token_tx_atomic emptyStore 0 1 10 100 42 "alice" true .txFailed (by rfl)

/-- C6: `UpsertUser` inserts a fresh row when no row carries the external
identity and otherwise merge-updates in place — display name last-write-wins,
optional attributes kept when the incoming value is absent, row count
unchanged — and two Issue-or-Rotate calls with the same identity and display
name leave exactly one user row for that identity. -/
theorem upsert_by_identity (s : Store) :
    (∀ now fu u, s.users.find? (fun w => w.discordUserID == u.discordUserID) = none →
      (UpsertUser s now fu u).1.users =
        s.users ++ [{ u with id := fu, createdAt := now, updatedAt := now }]) ∧
    (∀ now fu u old,
      s.users.find? (fun w => w.discordUserID == u.discordUserID) = some old →
      (UpsertUser s now fu u).2 = upsertMerge old u ∧
      (UpsertUser s now fu u).1.users.length = s.users.length ∧
      (upsertMerge old u).discordUsername = u.discordUsername ∧
      (u.minecraftName = none → (upsertMerge old u).minecraftName = old.minecraftName) ∧
      (∀ v, u.minecraftName = some v → (upsertMerge old u).minecraftName = some v) ∧
      (u.age = none → (upsertMerge old u).age = old.age) ∧
      (∀ a, u.age = some a → (upsertMerge old u).age = some a)) ∧
    (∀ now1 fu1 ft1 fs1 ff1 now2 fu2 ft2 fs2 ff2 did dn,
      (s.users.filter fun w : User => w.discordUserID == did).length ≤ 1 →
      ((CreateOrRotateLoginToken
          (CreateOrRotateLoginToken s now1 fu1 ft1 fs1 did dn ff1).1
          now2 fu2 ft2 fs2 did dn ff2).1.users.filter
        fun w : User => w.discordUserID == did).length = 1) := by
  refine ⟨?_, ?_, ?_⟩
  · intro now fu u hfind
    unfold UpsertUser
    rw [hfind]
  · intro now fu u old hfind
    refine ⟨?_, ?_, rfl, ?_, ?_, ?_, ?_⟩
    · unfold UpsertUser
      rw [hfind]
    · unfold UpsertUser
      rw [hfind]
      simp
    · intro hmc
      simp [upsertMerge, coalesce, hmc]
    · intro v hmc
      simp [upsertMerge, coalesce, hmc]
    · intro ha
      simp [upsertMerge, coalesce, ha]
    · intro a ha
      simp [upsertMerge, coalesce, ha]
  · intro now1 fu1 ft1 fs1 ff1 now2 fu2 ft2 fs2 ff2 did dn hle
    have h1 : (((UpsertUser s now1 fu1 (rotateInput did dn)).1).users.filter
        fun w : User => w.discordUserID == did).length = 1 :=
      upsertUser_count s now1 fu1 (rotateInput did dn) hle
    have hmid : ((CreateOrRotateLoginToken s now1 fu1 ft1 fs1 did dn ff1).1.users.filter
        fun w : User => w.discordUserID == did).length = 1 := by
      rw [createOrRotate_users]
      exact h1
    have h2 := upsertUser_count (CreateOrRotateLoginToken s now1 fu1 ft1 fs1 did dn ff1).1
      now2 fu2 (rotateInput did dn) (Nat.le_of_eq hmid)
    rw [createOrRotate_users]
    exact h2

/-- Closed instance of `upsert_by_identity`: issuing twice for identity 42
on the empty store leaves exactly one user row for it. -/
theorem upsert_by_identity_witness :
    ((CreateOrRotateLoginToken
        (CreateOrRotateLoginToken emptyStore 0 1 10 100 42 "alice" false).1
        0 2 11 101 42 "alice" false).1.users.filter
      fun w : User => w.discordUserID == (42 : Int)).length = 1 :=
  (upsert_by_identity emptyStore).2.2 0 1 10 100 false 0 2 11 101 false 42 "alice"
    (by decide)

/-- C10: `UpdateUserProfile` treats its two optional inputs asymmetrically —
an absent age keeps the stored age, while the in-game handle is always
overwritten with the supplied value, including being set to null — unlike
the upsert merge, which keeps the stored handle when the incoming one is
absent. -/
theorem update_profile_asymmetric (s : Store) (userID : Nat) (old : User)
    (hfind : findUserByID s userID = some old) :
    (∀ mc, ∃ s1 out, UpdateUserProfile s userID none mc = .ok (s1, out) ∧
      out.age = old.age ∧ out.minecraftName = mc) ∧
    (∀ a mc, ∃ s1 out, UpdateUserProfile s userID (some a) mc = .ok (s1, out) ∧
      out.age = some a ∧ out.minecraftName = mc) ∧
    (∀ w incoming, incoming.minecraftName = none →
      (upsertMerge w incoming).minecraftName = w.minecraftName) := by
  refine ⟨?_, ?_, ?_⟩
  · intro mc
    refine ⟨{ s with users := s.users.map fun w : User =>
        if w.id == userID then { w with age := coalesce none w.age, minecraftName := mc }
        else w },
      { old with age := coalesce none old.age, minecraftName := mc },
      ?_, ?_, rfl⟩
    · unfold UpdateUserProfile
      rw [hfind]
    · simp [coalesce]
  · intro a mc
    refine ⟨{ s with users := s.users.map fun w : User =>
        if w.id == userID then { w with age := coalesce (some a) w.age, minecraftName := mc }
        else w },
      { old with age := coalesce (some a) old.age, minecraftName := mc },
      ?_, ?_, rfl⟩
    · unfold UpdateUserProfile
      rw [hfind]
    · simp [coalesce]
  · intro w incoming hmc
    simp [upsertMerge, coalesce, hmc]

/-- Closed instance of `update_profile_asymmetric`: updating the fixture
user with both optional inputs absent keeps the age but nulls the handle. -/
theorem update_profile_asymmetric_witness :
    ∃ s1 out, UpdateUserProfile exStore 1 none none = .ok (s1, out) ∧
      out.age = exUser.age ∧ out.minecraftName = none :=
  (update_profile_asymmetric exStore 1 exUser (by decide)).1 none

/-- C7: a payload that fails to decode is reported on the error channel and
the loop keeps running — the events delivered and the exit outcome are those
of the remaining schedule — and a decoded notification is delivered with the
loop likewise continuing, whereas a transport error is reported on the error
channel and terminates the loop, ignoring everything after it. -/
theorem listener_decode_failure_vs_transport :
    (∀ raw rest,
      deliveredEvents (LoopStep.notif (.bad raw) :: rest) = deliveredEvents rest ∧
      reportedErrors (LoopStep.notif (.bad raw) :: rest) =
        ("decode notify payload: " ++ raw) :: reportedErrors rest ∧
      (runLoop (LoopStep.notif (.bad raw) :: rest)).2 = (runLoop rest).2) ∧
    (∀ ev rest,
      deliveredEvents (LoopStep.notif (.ok ev) :: rest) = ev :: deliveredEvents rest ∧
      reportedErrors (LoopStep.notif (.ok ev) :: rest) = reportedErrors rest ∧
      (runLoop (LoopStep.notif (.ok ev) :: rest)).2 = (runLoop rest).2) ∧
    (∀ m rest,
      deliveredEvents (LoopStep.waitErr m :: rest) = [] ∧
      reportedErrors (LoopStep.waitErr m :: rest) = ["listen error: " ++ m] ∧
      (runLoop (LoopStep.waitErr m :: rest)).2 = some (.transport m)) := by
  refine ⟨fun raw rest => ?_, fun ev rest => ?_, fun m rest => ?_⟩ <;>
    simp [deliveredEvents, reportedErrors, runLoop]

/-- C8: whenever the delivery loop exits — cancellation observed at the top
of the loop, `context.Canceled` from the wait, or a transport error — the
listener goroutine runs its deferred steps after the loop's own actions:
`UNLISTEN`, releasing the dedicated connection, and closing the error and
event channels. -/
theorem listener_cleanup_on_exit (steps : List LoopStep) (r : ExitReason)
    (h : (runLoop steps).2 = some r) :
    (runListener steps).1 = (runLoop steps).1 ++
      [.unlisten, .release, .closeErrs, .closeEvents] ∧
    (runListener steps).2 = some r ∧
    ListenerAct.unlisten ∈ (runListener steps).1 ∧
    ListenerAct.release ∈ (runListener steps).1 ∧
    ListenerAct.closeErrs ∈ (runListener steps).1 ∧
    ListenerAct.closeEvents ∈ (runListener steps).1 := by
  have hl : runListener steps =
      ((runLoop steps).1 ++ [.unlisten, .release, .closeErrs, .closeEvents], some r) := by
    unfold runListener
    simp only []
    rw [h]
  rw [hl]
  refine ⟨rfl, rfl, ?_, ?_, ?_, ?_⟩ <;> simp

/-- Closed instance of `listener_cleanup_on_exit` for a schedule that is
cancelled at the top of the loop. -/
theorem listener_cleanup_on_exit_witness :
    (runListener [LoopStep.ctxDone]).1 = (runLoop [LoopStep.ctxDone]).1 ++
      [.unlisten, .release, .closeErrs, .closeEvents] ∧
    (runListener [LoopStep.ctxDone]).2 = some .cancelled ∧
    ListenerAct.unlisten ∈ (runListener [LoopStep.ctxDone]).1 ∧
    ListenerAct.release ∈ (runListener [LoopStep.ctxDone]).1 ∧
    ListenerAct.closeErrs ∈ (runListener [LoopStep.ctxDone]).1 ∧
    ListenerAct.closeEvents ∈ (runListener [LoopStep.ctxDone]).1 :=
  listener_cleanup_on_exit [LoopStep.ctxDone] .cancelled (by rfl)

end TYSMP
